import Mathlib

/-!
Verification development for the WebSocket tunnel-broker VPN server.

The server's core (src/server.js) is shallowly embedded below:
- byte buffers are lists of naturals,
- the AES-256-GCM primitive from the platform crypto library is an
  abstract authenticated cipher (`AEAD`), since it is an external
  collaborator of the repository code,
- the blob-layout code of `SimpleEncryption` (iv | authTag | ciphertext,
  with 12/16-byte slicing) and `VPNEncryption` (16-byte iv) is embedded
  verbatim from the slicing arithmetic in the source,
- the broker state (clients map, tunnels map) and the
  `handleClientMessage` dispatch are an explicit state-transition
  function emitting a list of observable events.
-/

namespace VPN

/-- A byte buffer.  Bytes are naturals; the layout code never depends on
the 0..255 range. -/
abbrev Bytes := List Nat

/-- The authenticated cipher primitive (platform `crypto` module,
`aes-256-gcm`): an external collaborator of the repository code.
`enc key iv plaintext` returns `(ciphertext, authTag)`; `dec key iv tag
ciphertext` returns the plaintext or fails.  The fields `dec_enc` and
`auth` record the standard AEAD correctness and (idealized)
authentication properties the library provides. -/
structure AEAD where
  enc : Bytes → Bytes → Bytes → Bytes × Bytes
  dec : Bytes → Bytes → Bytes → Bytes → Option Bytes
  tag_len : ∀ k iv m, (enc k iv m).2.length = 16
  dec_enc : ∀ k iv m, dec k iv (enc k iv m).2 (enc k iv m).1 = some m
  auth : ∀ k k2 iv m, k ≠ k2 →
    dec k2 iv (enc k iv m).2 (enc k iv m).1 = none

/-- Source `SimpleEncryption.encrypt(data, key)`: fresh 12-byte iv, then
`Buffer.concat([iv, authTag, encrypted])`.  The fresh random iv is a
parameter of the embedding. -/
def SimpleEncryption.encrypt (A : AEAD) (key iv data : Bytes) : Bytes :=
  iv ++ (A.enc key iv data).2 ++ (A.enc key iv data).1

/-- Source `SimpleEncryption.decrypt(encryptedData, key)`: rejects blobs shorter
than 28 bytes, slices iv = `[0,12)`, authTag = `[12,28)`, data =
`[28,..)`, then authenticated-decrypts; any failure is all-or-nothing
(`none`). -/
def SimpleEncryption.decrypt (A : AEAD) (key blob : Bytes) : Option Bytes :=
  if blob.length < 28 then none
  else A.dec key (blob.take 12) ((blob.drop 12).take 16) (blob.drop 28)

/-- Source `VPNEncryption.encrypt(data)` (src/server.js): fresh 16-byte iv, key
fixed to the server key, blob = `iv | authTag | encrypted`. -/
def VPNEncryption.encrypt (A : AEAD) (key iv data : Bytes) : Bytes :=
  iv ++ (A.enc key iv data).2 ++ (A.enc key iv data).1

/-- Source `VPNEncryption.decrypt(data)` (src/server.js): slices iv = `[0,16)`,
authTag = `[16,32)`, encrypted = `[32,..)`; returns `null` (here `none`)
on any decryption error. -/
def VPNEncryption.decrypt (A : AEAD) (key blob : Bytes) : Option Bytes :=
  A.dec key (blob.take 16) ((blob.drop 16).take 16) (blob.drop 32)

/-- Injective encoding of a byte list into one natural, used only to
build a concrete witness instance of `AEAD`. -/
def encodeL : List Nat → Nat
  | [] => 0
  | a :: l => Nat.pair a (encodeL l) + 1

theorem encodeL_inj : ∀ {l1 l2 : List Nat}, encodeL l1 = encodeL l2 → l1 = l2
  | [], [], _ => rfl
  | [], _ :: _, h => by simp [encodeL] at h
  | _ :: _, [], h => by simp [encodeL] at h
  | a :: l1, b :: l2, h => by
    simp only [encodeL, Nat.add_right_cancel_iff] at h
    have h1 : (Nat.pair a (encodeL l1)).unpair = (Nat.pair b (encodeL l2)).unpair := by
      rw [h]
    simp only [Nat.unpair_pair, Prod.mk.injEq] at h1
    rw [h1.1, encodeL_inj h1.2]

/-- The tag produced by the toy witness cipher: 16 bytes, the first of
which encodes the whole key. -/
def toyTag (k : Bytes) : Bytes := encodeL k :: List.replicate 15 0

/-- A concrete `AEAD` used to instantiate theorems: ciphertext is the
plaintext, the tag binds the key. -/
def toyAEAD : AEAD where
  enc := fun k _ m => (m, toyTag k)
  dec := fun k _ tag ct => if tag = toyTag k then some ct else none
  tag_len := fun k _ _ => by simp [toyTag]
  dec_enc := fun k _ m => by simp
  auth := fun k k2 _ m h => by
    simp only [ite_eq_right_iff]
    intro he
    exact absurd (encodeL_inj (List.cons.injEq .. ▸ he).1) h

theorem take_len_append (l1 l2 : List Nat) : (l1 ++ l2).take l1.length = l1 := by
  simp

theorem drop_len_append (l1 l2 : List Nat) : (l1 ++ l2).drop l1.length = l2 := by
  simp

/-! ## JSON values and outbound messages

Every reply the server sends is `ws.send(JSON.stringify({...}))`; the
object literals are embedded as association lists of string keys and
JSON values, preserving the field names of the source. -/

inductive JVal where
  | str (s : String)
  | num (n : Int)
  | bool (b : Bool)
  | arr (xs : List JVal)
  | obj (fields : List (String × JVal))
  | null
deriving Repr

/-- An outbound JSON object: the field list of the object literal. -/
abbrev JObj := List (String × JVal)

/-- Field lookup in a JSON object. -/
def jlookup (k : String) : JObj → Option JVal
  | [] => none
  | (k2, v) :: rest => if k2 = k then some v else jlookup k rest

/-! ## Broker state -/

/-- A `TCPTunnel` object (src/server.js lines 56-122).  The constructor
sets `clientId`, `targetHost`, `targetPort`, `clientWs`, `tcpSocket`,
`tunnelId` — and nothing else; in particular it never assigns a
`createdAt` property, so reading `tunnel.createdAt` yields `undefined`,
modelled as `none`. -/
structure Tunnel where
  clientId : String
  targetHost : String
  targetPort : Nat
  tunnelId : String
  destroyed : Bool
  createdAt : Option Int
deriving Repr, DecidableEq

/-- Constructor `new TCPTunnel(clientId, targetHost, targetPort, clientWs)`. -/
def mkTunnel (clientId targetHost : String) (targetPort : Nat)
    (tunnelId : String) : Tunnel :=
  { clientId := clientId, targetHost := targetHost, targetPort := targetPort,
    tunnelId := tunnelId, destroyed := false, createdAt := none }

/-- A connected client session (`clientInfo` in src/server.js). -/
structure Client where
  id : String
  authenticated : Bool
  tunnels : List String
  connectedAt : Int
deriving Repr, DecidableEq

/-- The broker's two registries: `clients` and `tunnels`, JS `Map`s
embedded as association lists with unique keys. -/
structure ServerState where
  clients : List (String × Client)
  tunnels : List (String × Tunnel)
deriving Repr, DecidableEq

/-- JS `Map.get`. -/
def getA {α : Type} (k : String) : List (String × α) → Option α
  | [] => none
  | (k2, v) :: rest => if k2 = k then some v else getA k rest

/-- JS `Map.delete`. -/
def eraseA {α : Type} (k : String) (l : List (String × α)) : List (String × α) :=
  l.filter (fun p => p.1 ≠ k)

/-- JS `Map.set` (replace-or-insert; keeps keys unique). -/
def setA {α : Type} (k : String) (v : α) (l : List (String × α)) : List (String × α) :=
  (k, v) :: eraseA k l

/-- The initial broker state: both registries empty. -/
def initState : ServerState := { clients := [], tunnels := [] }

/-! ## Observable events -/

/-- Observable effects of a dispatch step: a JSON message sent to a
session's WebSocket, a write to a tunnel's outbound TCP socket, the
destruction of a tunnel's socket, or the start of an outbound HTTP proxy
request. -/
inductive Event where
  | send (clientId : String) (msg : JObj)
  | tcpWrite (tunnelId : String) (data : Bytes)
  | destroy (tunnelId : String)
  | httpRequest (clientId : String)
deriving Repr

/-! ## The JSON object literals of src/server.js -/

def authSuccessObj (clientId : String) : JObj :=
  [("type", .str "auth_success"), ("clientId", .str clientId),
   ("permissions", .arr [.str "create_tunnel", .str "ping", .str "stats"])]

def authFailedObj : JObj :=
  [("type", .str "auth_failed"), ("reason", .str "Invalid token")]

def pongObj (timestamp now : Int) : JObj :=
  [("type", .str "pong"), ("timestamp", .num timestamp),
   ("serverTime", .num now), ("latency", .num (now - timestamp))]

def errorObj (message : String) : JObj :=
  [("type", .str "error"), ("message", .str message)]

def tunnelCloseObj (tunnelId : String) : JObj :=
  [("type", .str "tunnel_close"), ("tunnelId", .str tunnelId)]

def welcomeObj (clientId : String) (now : Int) : JObj :=
  [("type", .str "welcome"), ("clientId", .str clientId),
   ("server", .str "full-vpn-oregon"), ("region", .str "Oregon (US West)"),
   ("encryption", .str "AES-256-GCM"), ("timestamp", .num now),
   ("endpoints", .obj [("health", .str "/health"), ("stats", .str "/stats")])]

def clientStatsObj (s : ServerState) (clientId : String) (client : Client)
    (uptime : Int) : JObj :=
  [("type", .str "client_stats"), ("clientId", .str clientId),
   ("connectedAt", .num client.connectedAt),
   ("authenticated", .bool client.authenticated),
   ("tunnels", .arr (client.tunnels.filterMap (fun id =>
      (getA id s.tunnels).map (fun t =>
        JVal.obj [("id", .str t.tunnelId),
                  ("target", .str (t.targetHost ++ ":" ++ toString t.targetPort))])))),
   ("serverStats", .obj
      [("totalClients", .num s.clients.length),
       ("totalTunnels", .num s.tunnels.length),
       ("uptime", .num uptime)])]

/-- The `pong` object of the secondary WebSocket server variant
(src/test-client.js, second document): it carries the echoed client
timestamp under the field name `originalTimestamp`. -/
def wsPongObj (timestamp now : Int) (isoNow : String) : JObj :=
  [("type", .str "pong"), ("timestamp", .num now),
   ("serverTime", .str isoNow), ("originalTimestamp", .num timestamp)]

/-! ## Inbound messages and dispatch -/

/-- An inbound client message, after JSON parsing, keyed by
`message.type` exactly as the dispatch switch is.  `createTunnel` keeps
the raw `targetPort` string (the handler applies `parseInt` itself);
`tunnelData` carries the base64-decoded payload bytes. -/
inductive InMsg where
  | auth (token : String)
  | ping (timestamp : Int)
  | createTunnel (targetHost : String) (targetPortRaw : String)
  | tunnelData (tunnelId : String) (payload : Bytes)
  | closeTunnel (tunnelId : String)
  | stats
  | httpProxy
  | unknown (ty : String)
deriving Repr, DecidableEq

/-- The static token allow-list of the `auth` case. -/
def validTokens : List String := ["client123", "browser-client", "vpn-user"]

/-- JS `parseInt` on the inputs at issue: the leading decimal digits, or
`NaN` (`none`) when there are none. -/
def jsParseInt (s : String) : Option Nat :=
  let ds := s.toList.takeWhile Char.isDigit
  if ds.isEmpty then none
  else some (ds.foldl (fun a c => a * 10 + (c.toNat - 48)) 0)

/-- Node `net.createConnection` validates the port synchronously
(`ERR_SOCKET_BAD_PORT` for `NaN` or out-of-range values) and throws; the
host is not validated synchronously (an empty or bad host only produces
an asynchronous lookup/connect error, and `options.host || 'localhost'`
makes the empty string fall back to localhost).  A `create_tunnel`
construction therefore throws exactly when the parsed port is illegal. -/
def legalPort : Option Nat → Bool
  | none => false
  | some p => p ≤ 65535

/-- Method `TCPTunnel.close()` (src/server.js lines 110-121): destroy the
outbound socket, delete the tunnel from the registry, and notify the
owner with `tunnel_close` — unconditionally, with no closed-state
guard. -/
def tunnelCloseOp (s : ServerState) (t : Tunnel) : ServerState × List Event :=
  ({ s with tunnels := eraseA t.tunnelId s.tunnels },
   [.destroy t.tunnelId, .send t.clientId (tunnelCloseObj t.tunnelId)])

/-- Per-dispatch environment: the random id `crypto.randomBytes` would
produce for a new tunnel, `Date.now()`, and `process.uptime()`. -/
structure Env where
  freshId : String := ""
  now : Int := 0
  uptime : Int := 0
deriving Repr

/-- Dispatch `handleClientMessage(clientId, message)` (src/server.js lines
408-545), as a state transition emitting observable events. -/
def handleClientMessage (A : AEAD) (key : Bytes) (e : Env)
    (s : ServerState) (clientId : String) (msg : InMsg) :
    ServerState × List Event :=
  match getA clientId s.clients with
  | none => (s, [])
  | some client =>
    match msg with
    | .auth token =>
      if token ∈ validTokens then
        ({ s with clients := setA clientId { client with authenticated := true } s.clients },
         [.send clientId (authSuccessObj clientId)])
      else
        (s, [.send clientId authFailedObj])
    | .ping timestamp =>
      (s, [.send clientId (pongObj timestamp e.now)])
    | .createTunnel targetHost targetPortRaw =>
      if !client.authenticated then
        (s, [.send clientId (errorObj "Authentication required")])
      else
        let port := jsParseInt targetPortRaw
        if legalPort port then
          let t := mkTunnel clientId targetHost (port.getD 0) e.freshId
          ({ clients := setA clientId
               { client with tunnels := client.tunnels ++ [e.freshId] } s.clients,
             tunnels := setA e.freshId t s.tunnels }, [])
        else
          (s, [.send clientId (errorObj "Failed to create tunnel")])
    | .tunnelData tunnelId payload =>
      if !client.authenticated then (s, [])
      else
        match getA tunnelId s.tunnels with
        | some t =>
          if t.clientId = clientId then
            match VPNEncryption.decrypt A key payload with
            | some decrypted =>
              if t.destroyed then (s, []) else (s, [.tcpWrite tunnelId decrypted])
            | none => (s, [])
          else (s, [])
        | none => (s, [])
    | .closeTunnel tunnelId =>
      if !client.authenticated then (s, [])
      else
        match getA tunnelId s.tunnels with
        | some t =>
          if t.clientId = clientId then
            let (s1, evs) := tunnelCloseOp s t
            let client2 := { client with
              tunnels := client.tunnels.filter (fun id => id ≠ tunnelId) }
            ({ s1 with clients := setA clientId client2 s1.clients }, evs)
          else (s, [])
        | none => (s, [])
    | .stats =>
      (s, [.send clientId (clientStatsObj s clientId client e.uptime)])
    | .httpProxy =>
      if !client.authenticated then (s, [])
      else (s, [.httpRequest clientId])
    | .unknown ty =>
      (s, [.send clientId (errorObj ("Unknown command: " ++ ty))])

/-- A new WebSocket connection (`wss.on('connection')`): register an
unauthenticated client and send `welcome`. -/
def connectOp (s : ServerState) (clientId : String) (now : Int) :
    ServerState × List Event :=
  let c : Client :=
    { id := clientId, authenticated := false, tunnels := [], connectedAt := now }
  ({ s with clients := setA clientId c s.clients },
   [.send clientId (welcomeObj clientId now)])

/-- One step of the disconnect loop: look the id up and close the
tunnel when it is still registered. -/
def closeStep (st : ServerState) (tid : String) : ServerState :=
  match getA tid st.tunnels with
  | some t => (tunnelCloseOp st t).1
  | none => st

/-- WebSocket `close` handler: close every tunnel in the client's list
that is still registered, then delete the client. -/
def disconnectOp (s : ServerState) (clientId : String) : ServerState :=
  match getA clientId s.clients with
  | none => s
  | some client =>
    let s1 := client.tunnels.foldl closeStep s
    { s1 with clients := eraseA clientId s1.clients }

/-- The outbound socket's `error`/`close` handler invoking
`this.close()` on a live tunnel. -/
def outboundCloseOp (s : ServerState) (tunnelId : String) : ServerState :=
  match getA tunnelId s.tunnels with
  | some t => (tunnelCloseOp s t).1
  | none => s

/-- JS `now - tunnel.createdAt > 3600000`: with `createdAt` unset the
subtraction is `NaN` and the comparison is false. -/
def ageExceeded (now : Int) : Option Int → Bool
  | none => false
  | some c => now - c > 3600000

/-- The periodic cleanup sweep (src/server.js lines 596-604): for each
registered tunnel whose age exceeds one hour, invoke `close()`. -/
def sweepOp (s : ServerState) (now : Int) : ServerState :=
  (s.tunnels.map Prod.fst).foldl (fun st tid =>
    match getA tid st.tunnels with
    | some t => if ageExceeded now t.createdAt then (tunnelCloseOp st t).1 else st
    | none => st) s

/-! ## Operations and reachability -/

/-- One broker-level operation: a connection accept, an inbound client
message, an outbound-socket-triggered tunnel close (`error`/`close`
event), a client disconnect, or a cleanup sweep. -/
inductive Op where
  | connect (clientId : String) (now : Int)
  | msg (clientId : String) (m : InMsg) (e : Env)
  | outboundClose (tunnelId : String)
  | disconnect (clientId : String)
  | sweep (now : Int)
deriving Repr

/-- Apply one operation to the broker state (events discarded). -/
def applyOp (A : AEAD) (key : Bytes) (s : ServerState) : Op → ServerState
  | .connect clientId now => (connectOp s clientId now).1
  | .msg clientId m e => (handleClientMessage A key e s clientId m).1
  | .outboundClose tunnelId => outboundCloseOp s tunnelId
  | .disconnect clientId => disconnectOp s clientId
  | .sweep now => sweepOp s now

/-- Apply a sequence of operations starting from a state. -/
def applyOps (A : AEAD) (key : Bytes) (s : ServerState) (ops : List Op) :
    ServerState :=
  ops.foldl (applyOp A key) s

/-- Ownership consistency: every tunnelId listed by a session resolves
in the broker's tunnel registry to a tunnel owned by that session. -/
def InvOwner (s : ServerState) : Prop :=
  ∀ cid c, getA cid s.clients = some c →
    ∀ tid ∈ c.tunnels, ∃ t, getA tid s.tunnels = some t ∧ t.clientId = cid

/-- Registry metadata consistency: every registered tunnel has an unset
`createdAt` (the constructor never assigns it) and a `tunnelId` field
matching its registry key. -/
def InvTunnelMeta (s : ServerState) : Prop :=
  ∀ tid t, getA tid s.tunnels = some t → t.createdAt = none ∧ t.tunnelId = tid

/-- The registry consistency invariant. -/
def Inv (s : ServerState) : Prop := InvOwner s ∧ InvTunnelMeta s

/-- The subset property of the claim: each session's tunnelId set is
contained in the tunnel registry's key set. -/
def SubsetInv (s : ServerState) : Prop :=
  ∀ cid c, getA cid s.clients = some c →
    ∀ tid ∈ c.tunnels, ∃ t, getA tid s.tunnels = some t

/-- A decidable check of the subset property, for concrete states. -/
def subsetInvB (s : ServerState) : Bool :=
  s.clients.all (fun p =>
    p.2.tunnels.all (fun tid => (getA tid s.tunnels).isSome))

/-- The side condition under which an operation is a "safe" one: any
operation other than an outbound-socket-triggered close, with the fresh
tunnel id of a `create_tunnel` genuinely fresh (the source draws it from
`crypto.randomBytes`). -/
def SafeOp (s : ServerState) : Op → Prop
  | .outboundClose _ => False
  | .msg _ m e =>
    match m with
    | .createTunnel _ _ => getA e.freshId s.tunnels = none
    | _ => True
  | _ => True

/-- States reachable from the empty broker by safe operations. -/
inductive ReachableSafe (A : AEAD) (key : Bytes) : ServerState → Prop where
  | init : ReachableSafe A key initState
  | step {s : ServerState} {op : Op} : ReachableSafe A key s → SafeOp s op →
      ReachableSafe A key (applyOp A key s op)

/-- Auth messages applied in sequence (the other dispatch cases are
irrelevant to the flag; see the C10 theorem for the general frame). -/
def applyAuths (A : AEAD) (key : Bytes) (s : ServerState) (clientId : String)
    (toks : List String) : ServerState :=
  toks.foldl (fun st tok => (handleClientMessage A key {} st clientId (.auth tok)).1) s

/-- Does an event carry a `tunnel_close` notification? -/
def isTunnelCloseMsg : Event → Bool
  | .send _ m =>
    match jlookup "type" m with
    | some (.str ty) => ty = "tunnel_close"
    | _ => false
  | _ => false

/-- Number of `tunnel_close` notifications in an event trace. -/
def countTunnelClose (evs : List Event) : Nat :=
  (evs.filter isTunnelCloseMsg).length

/-! ## Association-list registry lemmas -/

theorem getA_eraseA_self {α : Type} (k : String) (l : List (String × α)) :
    getA k (eraseA k l) = none := by
  induction l with
  | nil => rfl
  | cons p rest ih =>
    by_cases h : p.1 = k
    · simpa [eraseA, h] using ih
    · simpa [eraseA, getA, h] using ih

theorem getA_eraseA_ne {α : Type} (k k' : String) (l : List (String × α))
    (h : k' ≠ k) : getA k' (eraseA k l) = getA k' l := by
  induction l with
  | nil => rfl
  | cons p rest ih =>
    by_cases hp : p.1 = k
    · rw [show getA k' (p :: rest) = getA k' rest by
        simp [getA, hp, Ne.symm h]]
      simpa [eraseA, hp] using ih
    · by_cases hk : p.1 = k'
      · rw [show eraseA k (p :: rest) = p :: eraseA k rest by simp [eraseA, hp]]
        simp [getA, hk]
      · rw [show eraseA k (p :: rest) = p :: eraseA k rest by simp [eraseA, hp]]
        rw [show getA k' (p :: eraseA k rest) = getA k' (eraseA k rest) by
          simp [getA, hk]]
        rw [show getA k' (p :: rest) = getA k' rest by simp [getA, hk]]
        exact ih

theorem getA_setA_self {α : Type} (k : String) (v : α) (l : List (String × α)) :
    getA k (setA k v l) = some v := by
  simp [setA, getA]

theorem getA_setA_ne {α : Type} (k k' : String) (v : α) (l : List (String × α))
    (h : k' ≠ k) : getA k' (setA k v l) = getA k' l := by
  simp only [setA, getA, Ne.symm h, if_false]
  exact getA_eraseA_ne k k' l h

theorem eraseA_idem {α : Type} (k : String) (l : List (String × α)) :
    eraseA k (eraseA k l) = eraseA k l := by
  simp [eraseA, List.filter_filter]

/-! ## Cipher layout lemmas -/

theorem simple_decrypt_encrypt (A : AEAD) (kd k iv m : Bytes)
    (hiv : iv.length = 12) :
    SimpleEncryption.decrypt A kd (SimpleEncryption.encrypt A k iv m)
      = A.dec kd iv (A.enc k iv m).2 (A.enc k iv m).1 := by
  have htag := A.tag_len k iv m
  have h28 : (iv ++ (A.enc k iv m).2).length = 28 := by
    simp [hiv, htag]
  unfold SimpleEncryption.decrypt SimpleEncryption.encrypt
  rw [if_neg (by simp [hiv, htag]; omega)]
  congr 1
  · rw [List.append_assoc, ← hiv, take_len_append]
  · rw [List.append_assoc, ← hiv, drop_len_append, ← htag, take_len_append]
  · rw [← h28, drop_len_append]

/-! ## Claim theorems -/

/-- C3: for every payload `m` and key `k`, `decrypt(encrypt(m, k), k)`
returns `m`, and for every key `k2 ≠ k`, `decrypt(encrypt(m, k), k2)`
fails with the failure value rather than any plaintext.  (`iv` is the
fresh 12-byte nonce the encryptor draws.) -/
theorem C3_decrypt_encrypt (A : AEAD) (k k2 iv m : Bytes)
    (hiv : iv.length = 12) :
    SimpleEncryption.decrypt A k (SimpleEncryption.encrypt A k iv m) = some m ∧
    (k2 ≠ k →
      SimpleEncryption.decrypt A k2 (SimpleEncryption.encrypt A k iv m) = none) := by
  constructor
  · rw [simple_decrypt_encrypt A k k iv m hiv]
    exact A.dec_enc k iv m
  · intro hne
    rw [simple_decrypt_encrypt A k2 k iv m hiv]
    exact A.auth k k2 iv m (Ne.symm hne)

theorem C3_decrypt_encrypt_witness :
    (List.replicate 12 7 : Bytes).length = 12 ∧
    (SimpleEncryption.decrypt toyAEAD [1, 2]
        (SimpleEncryption.encrypt toyAEAD [1, 2] (List.replicate 12 7) [9, 9, 9])
      = some [9, 9, 9] ∧
     (([1, 3] : Bytes) ≠ [1, 2] →
      SimpleEncryption.decrypt toyAEAD [1, 3]
          (SimpleEncryption.encrypt toyAEAD [1, 2] (List.replicate 12 7) [9, 9, 9])
        = none)) :=
  ⟨by decide, C3_decrypt_encrypt toyAEAD [1, 2] [1, 3] (List.replicate 12 7)
    [9, 9, 9] (by decide)⟩

/-- C7: two encrypt calls drawing distinct fresh nonces produce distinct
blobs (the nonce occupies the leading bytes, so identical plaintexts
never yield identical blobs), and each blob has the layout
`nonce | authTag(16 bytes) | ciphertext`. -/
theorem C7_fresh_nonce (A : AEAD) (k iv1 iv2 m1 m2 : Bytes)
    (h1 : iv1.length = 12) (h2 : iv2.length = 12) (hne : iv1 ≠ iv2) :
    SimpleEncryption.encrypt A k iv1 m1 ≠ SimpleEncryption.encrypt A k iv2 m2 ∧
    SimpleEncryption.encrypt A k iv1 m1
      = iv1 ++ (A.enc k iv1 m1).2 ++ (A.enc k iv1 m1).1 ∧
    (A.enc k iv1 m1).2.length = 16 := by
  refine ⟨?_, rfl, A.tag_len k iv1 m1⟩
  intro h
  apply hne
  have h12 : (SimpleEncryption.encrypt A k iv1 m1).take 12
      = (SimpleEncryption.encrypt A k iv2 m2).take 12 := by rw [h]
  unfold SimpleEncryption.encrypt at h12
  rw [List.append_assoc, List.append_assoc] at h12
  nth_rewrite 1 [← h1] at h12
  nth_rewrite 1 [← h2] at h12
  rwa [take_len_append, take_len_append] at h12

theorem C7_fresh_nonce_witness :
    (List.replicate 12 0 : Bytes).length = 12 ∧
    (List.replicate 12 1 : Bytes).length = 12 ∧
    (List.replicate 12 0 : Bytes) ≠ List.replicate 12 1 ∧
    (SimpleEncryption.encrypt toyAEAD [4] (List.replicate 12 0) [5]
        ≠ SimpleEncryption.encrypt toyAEAD [4] (List.replicate 12 1) [5] ∧
     SimpleEncryption.encrypt toyAEAD [4] (List.replicate 12 0) [5]
        = List.replicate 12 0 ++ (toyAEAD.enc [4] (List.replicate 12 0) [5]).2
            ++ (toyAEAD.enc [4] (List.replicate 12 0) [5]).1 ∧
     (toyAEAD.enc [4] (List.replicate 12 0) [5]).2.length = 16) :=
  ⟨by decide, by decide, by decide,
   C7_fresh_nonce toyAEAD [4] (List.replicate 12 0) (List.replicate 12 1) [5] [5]
     (by decide) (by decide) (by decide)⟩

/-- C1: a `tunnel_data` message sent by session `b` naming a tunnelId
whose tunnel is owned by session `a ≠ b` is never written to that
tunnel's outbound connection and changes no registry state: the dispatch
returns the state unchanged and emits no event at all. -/
theorem C1_no_cross_session_delivery (A : AEAD) (key : Bytes) (e : Env)
    (s : ServerState) (tid a b : String) (t : Tunnel) (payload : Bytes)
    (ht : getA tid s.tunnels = some t) (howner : t.clientId = a) (hab : a ≠ b) :
    handleClientMessage A key e s b (InMsg.tunnelData tid payload) = (s, []) := by
  unfold handleClientMessage
  cases hc : getA b s.clients with
  | none => rfl
  | some client =>
    have hov : ¬(t.clientId = b) := by rw [howner]; exact hab
    by_cases hauth : client.authenticated
    · simp [hauth, ht, hov]
    · simp [hauth]

/-- A concrete two-session state: `a` owns tunnel `t1`, `b` owns
nothing; both authenticated. -/
def twoSessionState : ServerState where
  clients :=
    [("a", { id := "a", authenticated := true, tunnels := ["t1"], connectedAt := 0 }),
     ("b", { id := "b", authenticated := true, tunnels := [], connectedAt := 0 })]
  tunnels := [("t1", mkTunnel "a" "example.com" 80 "t1")]

theorem C1_no_cross_session_delivery_witness :
    getA "t1" twoSessionState.tunnels = some (mkTunnel "a" "example.com" 80 "t1") ∧
    (mkTunnel "a" "example.com" 80 "t1").clientId = "a" ∧
    "a" ≠ "b" ∧
    handleClientMessage toyAEAD [] {} twoSessionState "b"
        (InMsg.tunnelData "t1" [3, 1, 4])
      = (twoSessionState, []) :=
  ⟨rfl, rfl, by decide,
   C1_no_cross_session_delivery toyAEAD [] {} twoSessionState "t1" "a" "b"
     (mkTunnel "a" "example.com" 80 "t1") [3, 1, 4] rfl rfl (by decide)⟩

/-- A concrete state with a single unauthenticated session `u`. -/
def preAuthState : ServerState where
  clients := [("u", { id := "u", authenticated := false, tunnels := [], connectedAt := 0 })]
  tunnels := []

def preAuthClient : Client :=
  { id := "u", authenticated := false, tunnels := [], connectedAt := 0 }

/-- C2 fails on the code: a pre-auth `stats` is answered with a
`client_stats` message — not an `error` — and pre-auth `tunnel_data`,
`close_tunnel` and `http_proxy` are dropped with no reply at all. -/
theorem C2_counterexample :
    handleClientMessage toyAEAD [] {} preAuthState "u" InMsg.stats
      = (preAuthState, [.send "u" (clientStatsObj preAuthState "u" preAuthClient 0)]) ∧
    jlookup "type" (clientStatsObj preAuthState "u" preAuthClient 0)
      = some (JVal.str "client_stats") ∧
    JVal.str "client_stats" ≠ JVal.str "error" ∧
    handleClientMessage toyAEAD [] {} preAuthState "u" (InMsg.tunnelData "t" [])
      = (preAuthState, []) ∧
    handleClientMessage toyAEAD [] {} preAuthState "u" (InMsg.closeTunnel "t")
      = (preAuthState, []) ∧
    handleClientMessage toyAEAD [] {} preAuthState "u" InMsg.httpProxy
      = (preAuthState, []) := by
  refine ⟨rfl, rfl, ?_, rfl, rfl, rfl⟩
  intro h
  injection h with h2
  exact absurd h2 (by decide)

/-- C2 amended: for every unauthenticated session, each of the five
message types leaves both registries unchanged; but only
`create_tunnel` is answered with an `error` — `tunnel_data`,
`close_tunnel` and `http_proxy` produce no reply at all, and `stats`
(which the dispatch never guards with an authentication check) is
answered with a full `client_stats` message. -/
theorem C2_preauth_no_mutation (A : AEAD) (key : Bytes) (e : Env)
    (s : ServerState) (cid : String) (c : Client)
    (hc : getA cid s.clients = some c) (hauth : c.authenticated = false) :
    (∀ host portRaw, handleClientMessage A key e s cid (.createTunnel host portRaw)
        = (s, [.send cid (errorObj "Authentication required")])) ∧
    (∀ tid payload, handleClientMessage A key e s cid (.tunnelData tid payload)
        = (s, [])) ∧
    (∀ tid, handleClientMessage A key e s cid (.closeTunnel tid) = (s, [])) ∧
    handleClientMessage A key e s cid .httpProxy = (s, []) ∧
    handleClientMessage A key e s cid .stats
        = (s, [.send cid (clientStatsObj s cid c e.uptime)]) := by
  refine ⟨fun host portRaw => ?_, fun tid payload => ?_, fun tid => ?_, ?_, ?_⟩ <;>
    simp [handleClientMessage, hc, hauth]

theorem C2_preauth_no_mutation_witness :
    getA "u" preAuthState.clients = some preAuthClient ∧
    preAuthClient.authenticated = false ∧
    ((∀ host portRaw, handleClientMessage toyAEAD [] {} preAuthState "u"
          (.createTunnel host portRaw)
        = (preAuthState, [.send "u" (errorObj "Authentication required")])) ∧
     (∀ tid payload, handleClientMessage toyAEAD [] {} preAuthState "u"
          (.tunnelData tid payload) = (preAuthState, [])) ∧
     (∀ tid, handleClientMessage toyAEAD [] {} preAuthState "u" (.closeTunnel tid)
        = (preAuthState, [])) ∧
     handleClientMessage toyAEAD [] {} preAuthState "u" .httpProxy
        = (preAuthState, []) ∧
     handleClientMessage toyAEAD [] {} preAuthState "u" .stats
        = (preAuthState, [.send "u" (clientStatsObj preAuthState "u" preAuthClient 0)])) :=
  ⟨rfl, rfl,
   C2_preauth_no_mutation toyAEAD [] {} preAuthState "u" preAuthClient rfl rfl⟩

/-- C4 fails on the code: `TCPTunnel.close` has no closed-state guard
and notifies the owner unconditionally, so the explicit close followed
by the second invocation (the outbound socket's `close` handler calling
`this.close()` again) emits two `tunnel_close` messages, not exactly
one. -/
theorem C4_counterexample :
    countTunnelClose
        ((tunnelCloseOp twoSessionState (mkTunnel "a" "example.com" 80 "t1")).2 ++
         (tunnelCloseOp (tunnelCloseOp twoSessionState
             (mkTunnel "a" "example.com" 80 "t1")).1
           (mkTunnel "a" "example.com" 80 "t1")).2)
      = 2 ∧ (2 : Nat) ≠ 1 :=
  ⟨rfl, by decide⟩

/-- C4 amended: every invocation of `close` emits one `tunnel_close`
notification to the owner — so closing twice emits two, not one.  The
registry effect is idempotent: the second invocation produces the same
state and the same events as the first, deleting nothing further and
raising no error. -/
theorem C4_close_not_idempotent (s : ServerState) (t : Tunnel) :
    (tunnelCloseOp (tunnelCloseOp s t).1 t).1 = (tunnelCloseOp s t).1 ∧
    (tunnelCloseOp (tunnelCloseOp s t).1 t).2 = (tunnelCloseOp s t).2 ∧
    countTunnelClose (tunnelCloseOp s t).2 = 1 ∧
    countTunnelClose
        ((tunnelCloseOp s t).2 ++ (tunnelCloseOp (tunnelCloseOp s t).1 t).2)
      = 2 := by
  refine ⟨?_, rfl, ?_, ?_⟩
  · simp [tunnelCloseOp, eraseA_idem]
  · simp [countTunnelClose, tunnelCloseOp, isTunnelCloseMsg, tunnelCloseObj, jlookup]
  · simp [countTunnelClose, tunnelCloseOp, isTunnelCloseMsg, tunnelCloseObj, jlookup]

/-- When every registered tunnel has an unset `createdAt`, the sweep's
age test `now - createdAt > 3600000` is a `NaN` comparison, hence false,
and the whole sweep is the identity. -/
theorem sweepOp_noop (s : ServerState) (now : Int)
    (h : ∀ tid t, getA tid s.tunnels = some t → t.createdAt = none) :
    sweepOp s now = s := by
  unfold sweepOp
  generalize s.tunnels.map Prod.fst = keys
  induction keys generalizing s with
  | nil => rfl
  | cons k rest ih =>
    simp only [List.foldl_cons]
    cases hk : getA k s.tunnels with
    | none => exact ih s h
    | some t =>
      simp only [h k t hk, ageExceeded, Bool.false_eq_true, if_false]
      exact ih s h

/-- C6 is right about the intent and wrong about the code: the
`TCPTunnel` constructor never assigns `createdAt`, so the sweep's test
`now - tunnel.createdAt > 3600000` evaluates `NaN > 3600000 = false` for
every tunnel and the sweep closes nothing — a tunnel older than the
maximum lifetime survives every sweep.  For any state whose tunnels all
come from the constructor, the sweep is the identity. -/
theorem C6_sweep_never_reaps (s : ServerState) (now : Int)
    (h : ∀ tid t, getA tid s.tunnels = some t → t.createdAt = none) :
    sweepOp s now = s ∧
    ∀ cid host port tid, (mkTunnel cid host port tid).createdAt = none :=
  ⟨sweepOp_noop s now h, fun _ _ _ _ => rfl⟩

theorem C6_sweep_never_reaps_witness :
    (∀ tid t, getA tid twoSessionState.tunnels = some t → t.createdAt = none) ∧
    (sweepOp twoSessionState 999999999 = twoSessionState ∧
     ∀ cid host port tid, (mkTunnel cid host port tid).createdAt = none) := by
  have hno : ∀ tid t, getA tid twoSessionState.tunnels = some t →
      t.createdAt = none := by
    intro tid t ht
    simp only [twoSessionState, getA] at ht
    split at ht
    · cases ht; rfl
    · cases ht
  exact ⟨hno, C6_sweep_never_reaps twoSessionState 999999999 hno⟩

/-- A concrete state with a single authenticated session `a` and no
tunnels. -/
def authedState : ServerState where
  clients := [("a", { id := "a", authenticated := true, tunnels := [], connectedAt := 0 })]
  tunnels := []

/-- C8 fails on the code for the empty-host half: `create_tunnel` with
`targetHost = ""` and a numeric port is not rejected — no `error` is
sent and a Tunnel is registered in the tunnel registry and in the
session's list (the socket library validates only the port
synchronously; `options.host || 'localhost'` makes the empty string fall
back to localhost). -/
theorem C8_counterexample :
    (handleClientMessage toyAEAD [] { freshId := "t9" } authedState "a"
        (InMsg.createTunnel "" "80")).2 = [] ∧
    getA "t9" (handleClientMessage toyAEAD [] { freshId := "t9" } authedState "a"
        (InMsg.createTunnel "" "80")).1.tunnels
      = some (mkTunnel "a" "" 80 "t9") ∧
    getA "a" (handleClientMessage toyAEAD [] { freshId := "t9" } authedState "a"
        (InMsg.createTunnel "" "80")).1.clients
      = some { id := "a", authenticated := true, tunnels := ["t9"], connectedAt := 0 } :=
  ⟨rfl, rfl, rfl⟩

/-- C8 amended: for an authenticated session, a `create_tunnel` with a
non-numeric `targetPort` is answered with an `error` and adds nothing to
either registry (the socket library throws `ERR_SOCKET_BAD_PORT`
synchronously on `parseInt`'s `NaN`, and the handler's catch replies
`error`); an empty `targetHost` is not rejected — with a legal port the
tunnel is constructed and registered with no error reply. -/
theorem C8_malformed_create (A : AEAD) (key : Bytes) (e : Env)
    (s : ServerState) (cid : String) (c : Client)
    (hc : getA cid s.clients = some c) (hauth : c.authenticated = true) :
    (∀ host portRaw, jsParseInt portRaw = none →
      handleClientMessage A key e s cid (.createTunnel host portRaw)
        = (s, [.send cid (errorObj "Failed to create tunnel")])) ∧
    (∀ portRaw p, jsParseInt portRaw = some p → p ≤ 65535 →
      handleClientMessage A key e s cid (.createTunnel "" portRaw)
        = ({ clients := setA cid { c with tunnels := c.tunnels ++ [e.freshId] } s.clients,
             tunnels := setA e.freshId (mkTunnel cid "" p e.freshId) s.tunnels }, [])) := by
  constructor
  · intro host portRaw hp
    simp [handleClientMessage, hc, hauth, hp, legalPort]
  · intro portRaw p hp hle
    simp [handleClientMessage, hc, hauth, hp, legalPort, hle]

theorem C8_malformed_create_witness :
    getA "a" authedState.clients
      = some { id := "a", authenticated := true, tunnels := [], connectedAt := 0 } ∧
    (Client.authenticated
        { id := "a", authenticated := true, tunnels := [], connectedAt := 0 }) = true ∧
    jsParseInt "oops" = none ∧
    ((∀ host portRaw, jsParseInt portRaw = none →
        handleClientMessage toyAEAD [] { freshId := "t9" } authedState "a"
            (.createTunnel host portRaw)
          = (authedState, [.send "a" (errorObj "Failed to create tunnel")])) ∧
     (∀ portRaw p, jsParseInt portRaw = some p → p ≤ 65535 →
        handleClientMessage toyAEAD [] { freshId := "t9" } authedState "a"
            (.createTunnel "" portRaw)
          = ({ clients := setA "a"
                 { id := "a", authenticated := true, tunnels := ["t9"], connectedAt := 0 }
                 authedState.clients,
               tunnels := setA "t9" (mkTunnel "a" "" p "t9") authedState.tunnels }, []))) :=
  ⟨rfl, rfl, rfl,
   C8_malformed_create toyAEAD [] { freshId := "t9" } authedState "a"
     { id := "a", authenticated := true, tunnels := [], connectedAt := 0 } rfl rfl⟩

/-- C9 fails on the code: the broker's `pong` reply carries the echoed
client timestamp under the field name `timestamp`; it has no
`originalTimestamp` field at all. -/
theorem C9_counterexample :
    handleClientMessage toyAEAD [] { now := 5000 } preAuthState "u" (InMsg.ping 1000)
      = (preAuthState, [.send "u" (pongObj 1000 5000)]) ∧
    jlookup "originalTimestamp" (pongObj 1000 5000) = none ∧
    jlookup "timestamp" (pongObj 1000 5000) = some (JVal.num 1000) :=
  ⟨rfl, rfl, rfl⟩

/-- C9 amended: for every session and timestamp `t`, a `ping` is
answered with a `pong` that echoes `t` in its `timestamp` field and
populates `serverTime`, with no other state change; the
`originalTimestamp` field name appears only in the secondary
WebSocket-variant server of src/test-client.js, whose pong does set
`originalTimestamp = t`. -/
theorem C9_ping_echo (A : AEAD) (key : Bytes) (e : Env) (s : ServerState)
    (cid : String) (c : Client) (t : Int)
    (hc : getA cid s.clients = some c) :
    handleClientMessage A key e s cid (.ping t) = (s, [.send cid (pongObj t e.now)]) ∧
    jlookup "timestamp" (pongObj t e.now) = some (JVal.num t) ∧
    jlookup "serverTime" (pongObj t e.now) = some (JVal.num e.now) ∧
    ∀ now iso, jlookup "originalTimestamp" (wsPongObj t now iso) = some (JVal.num t) := by
  refine ⟨?_, ?_, ?_, fun now iso => ?_⟩
  · simp [handleClientMessage, hc]
  · rfl
  · rfl
  · rfl

theorem C9_ping_echo_witness :
    getA "u" preAuthState.clients = some preAuthClient ∧
    (handleClientMessage toyAEAD [] { now := 5000 } preAuthState "u" (.ping 1000)
        = (preAuthState, [.send "u" (pongObj 1000 5000)]) ∧
     jlookup "timestamp" (pongObj 1000 5000) = some (JVal.num 1000) ∧
     jlookup "serverTime" (pongObj 1000 5000) = some (JVal.num 5000) ∧
     ∀ now iso, jlookup "originalTimestamp" (wsPongObj 1000 now iso)
        = some (JVal.num 1000)) :=
  ⟨rfl, C9_ping_echo toyAEAD [] { now := 5000 } preAuthState "u" preAuthClient 1000 rfl⟩

/-! ## Auth-flag lemmas -/

theorem handle_auth_valid (A : AEAD) (key : Bytes) (e : Env) (s : ServerState)
    (cid : String) (c : Client) (tok : String)
    (hc : getA cid s.clients = some c) (hv : tok ∈ validTokens) :
    handleClientMessage A key e s cid (.auth tok)
      = ({ s with clients := setA cid { c with authenticated := true } s.clients },
         [.send cid (authSuccessObj cid)]) := by
  simp [handleClientMessage, hc, hv]

theorem handle_auth_invalid (A : AEAD) (key : Bytes) (e : Env) (s : ServerState)
    (cid : String) (c : Client) (tok : String)
    (hc : getA cid s.clients = some c) (hv : tok ∉ validTokens) :
    handleClientMessage A key e s cid (.auth tok) = (s, [.send cid authFailedObj]) := by
  simp [handleClientMessage, hc, hv]

/-- The dispatch only ever rewrites the sender's client record, and only
to set the flag (on valid auth) or replace the tunnel list; it never
clears an already-set `authenticated` flag. -/
theorem handle_clients_shape (A : AEAD) (key : Bytes) (e : Env) (s : ServerState)
    (cid : String) (m : InMsg) (client : Client)
    (hc : getA cid s.clients = some client) :
    (handleClientMessage A key e s cid m).1.clients = s.clients ∨
    ∃ b tl, (handleClientMessage A key e s cid m).1.clients
        = setA cid { client with authenticated := b, tunnels := tl } s.clients ∧
      (client.authenticated = true → b = true) := by
  unfold handleClientMessage
  rw [hc]
  cases m with
  | auth tok =>
    by_cases hv : tok ∈ validTokens
    · exact Or.inr ⟨true, client.tunnels, by simp [hv], fun _ => rfl⟩
    · exact Or.inl (by simp [hv])
  | ping t => exact Or.inl rfl
  | createTunnel host portRaw =>
    by_cases hauth : client.authenticated
    · by_cases hp : legalPort (jsParseInt portRaw)
      · refine Or.inr ⟨client.authenticated, client.tunnels ++ [e.freshId], ?_, fun h => h⟩
        simp [hauth, hp]
      · exact Or.inl (by simp [hauth, hp])
    · exact Or.inl (by simp [hauth])
  | tunnelData tid payload =>
    by_cases hauth : client.authenticated
    · simp only [hauth]
      cases ht : getA tid s.tunnels with
      | none => exact Or.inl rfl
      | some t =>
        by_cases ho : t.clientId = cid
        · simp only [ho, if_true]
          cases VPNEncryption.decrypt A key payload with
          | none => exact Or.inl rfl
          | some d =>
            by_cases hd : t.destroyed <;> exact Or.inl (by simp [hd])
        · exact Or.inl (by simp [ho])
    · exact Or.inl (by simp [hauth])
  | closeTunnel tid =>
    by_cases hauth : client.authenticated
    · cases ht : getA tid s.tunnels with
      | none => exact Or.inl (by simp [hauth, ht])
      | some t =>
        by_cases ho : t.clientId = cid
        · refine Or.inr ⟨client.authenticated,
            client.tunnels.filter (fun id => id ≠ tid), ?_, fun h => h⟩
          simp [hauth, ht, ho, tunnelCloseOp]
        · exact Or.inl (by simp [hauth, ht, ho])
    · exact Or.inl (by simp [hauth])
  | stats => exact Or.inl rfl
  | httpProxy =>
    by_cases hauth : client.authenticated <;> exact Or.inl (by simp [hauth])
  | unknown ty => exact Or.inl rfl

/-- No dispatch step ever turns a session's `authenticated` flag from
true back to false. -/
theorem handle_preserves_auth (A : AEAD) (key : Bytes) (e : Env) (s : ServerState)
    (cid : String) (m : InMsg) (cid' : String) (c' : Client)
    (h : getA cid' s.clients = some c') (ha : c'.authenticated = true) :
    ∃ c2, getA cid' (handleClientMessage A key e s cid m).1.clients = some c2 ∧
      c2.authenticated = true := by
  cases hc : getA cid s.clients with
  | none =>
    have : (handleClientMessage A key e s cid m).1.clients = s.clients := by
      unfold handleClientMessage; rw [hc]
    exact ⟨c', by rw [this]; exact h, ha⟩
  | some client =>
    rcases handle_clients_shape A key e s cid m client hc with hsh | ⟨b, tl, hsh, hb⟩
    · exact ⟨c', by rw [hsh]; exact h, ha⟩
    · by_cases hcc : cid' = cid
      · subst hcc
        rw [hc] at h
        injection h with h
        exact ⟨{ client with authenticated := b, tunnels := tl },
          by rw [hsh]; exact getA_setA_self _ _ _, hb (by rw [h]; exact ha)⟩
      · exact ⟨c', by rw [hsh, getA_setA_ne _ _ _ _ hcc]; exact h, ha⟩

/-- The flag after a sequence of auth messages: the original value or-ed
with "some token was on the allow-list"; id, tunnel list and
`connectedAt` are untouched. -/
theorem applyAuths_flag (A : AEAD) (key : Bytes) (s : ServerState)
    (cid : String) (c : Client) (toks : List String)
    (hc : getA cid s.clients = some c) :
    ∃ c2, getA cid (applyAuths A key s cid toks).clients = some c2 ∧
      c2.authenticated
        = (c.authenticated || toks.any (fun t => decide (t ∈ validTokens))) ∧
      c2.id = c.id ∧ c2.tunnels = c.tunnels ∧ c2.connectedAt = c.connectedAt := by
  induction toks generalizing s c with
  | nil => exact ⟨c, hc, by simp, rfl, rfl, rfl⟩
  | cons tok rest ih =>
    by_cases hv : tok ∈ validTokens
    · have hstep := handle_auth_valid A key {} s cid c tok hc hv
      have hc1 : getA cid ({ s with
          clients := setA cid { c with authenticated := true } s.clients } :
            ServerState).clients = some { c with authenticated := true } :=
        getA_setA_self _ _ _
      obtain ⟨c2, hg, hflag, hid, htl, hca⟩ := ih _ _ hc1
      refine ⟨c2, ?_, ?_, hid, htl, hca⟩
      · simpa [applyAuths, hstep] using hg
      · simp only [hflag]
        simp [hv]
    · have hstep := handle_auth_invalid A key {} s cid c tok hc hv
      obtain ⟨c2, hg, hflag, hid, htl, hca⟩ := ih _ _ hc
      refine ⟨c2, ?_, ?_, hid, htl, hca⟩
      · simpa [applyAuths, hstep] using hg
      · simp only [hflag]
        simp [hv]

/-- C10: a failed `auth` never changes the session's flag — after any
sequence of auth messages from a fresh (unauthenticated) session the
flag is true iff at least one of them carried a token from the static
allow-list; and no dispatch step (of any message type) ever turns an
already-true flag back to false. -/
theorem C10_auth_flag (A : AEAD) (key : Bytes) (s : ServerState)
    (cid : String) (c : Client) (toks : List String)
    (hc : getA cid s.clients = some c) (hstart : c.authenticated = false) :
    (∃ c2, getA cid (applyAuths A key s cid toks).clients = some c2 ∧
       (c2.authenticated = true ↔ ∃ tok ∈ toks, tok ∈ validTokens)) ∧
    (∀ e m cid' c', getA cid' s.clients = some c' → c'.authenticated = true →
       ∃ c2, getA cid' (handleClientMessage A key e s cid m).1.clients = some c2 ∧
         c2.authenticated = true) := by
  constructor
  · obtain ⟨c2, hg, hflag, -, -, -⟩ := applyAuths_flag A key s cid c toks hc
    refine ⟨c2, hg, ?_⟩
    rw [hflag, hstart, Bool.false_or]
    simp [List.any_eq_true]
  · intro e m cid' c' h ha
    exact handle_preserves_auth A key e s cid m cid' c' h ha

/-! ## Registry invariant preservation (C5) -/

theorem handle_state_id (A : AEAD) (key : Bytes) (e : Env) (s : ServerState)
    (cid : String) (m : InMsg)
    (hm : (match m with
           | .auth tok => tok ∉ validTokens
           | .ping _ => True
           | .tunnelData _ _ => True
           | .stats => True
           | .httpProxy => True
           | .unknown _ => True
           | _ => False)) :
    (handleClientMessage A key e s cid m).1 = s := by
  cases hc : getA cid s.clients with
  | none => unfold handleClientMessage; rw [hc]
  | some client =>
    unfold handleClientMessage
    rw [hc]
    cases m with
    | auth tok => simp [hm]
    | ping t => rfl
    | tunnelData tid payload =>
      by_cases hauth : client.authenticated
      · cases ht : getA tid s.tunnels with
        | none => simp [hauth, ht]
        | some t =>
          by_cases ho : t.clientId = cid
          · cases hd : VPNEncryption.decrypt A key payload with
            | none => simp [hauth, ht, ho, hd]
            | some d =>
              by_cases hdes : t.destroyed <;> simp [hauth, ht, ho, hd, hdes]
          · simp [hauth, ht, ho]
      · simp [hauth]
    | stats => rfl
    | httpProxy =>
      by_cases hauth : client.authenticated <;> simp [hauth]
    | unknown ty => rfl
    | createTunnel host portRaw => exact absurd hm (by simp)
    | closeTunnel tid => exact absurd hm (by simp)

theorem handle_create_legal (A : AEAD) (key : Bytes) (e : Env) (s : ServerState)
    (cid : String) (client : Client) (host portRaw : String)
    (hc : getA cid s.clients = some client) (hauth : client.authenticated = true)
    (hp : legalPort (jsParseInt portRaw) = true) :
    handleClientMessage A key e s cid (.createTunnel host portRaw)
      = ({ clients := setA cid
             { client with tunnels := client.tunnels ++ [e.freshId] } s.clients,
           tunnels := setA e.freshId
             (mkTunnel cid host ((jsParseInt portRaw).getD 0) e.freshId) s.tunnels },
         []) := by
  simp [handleClientMessage, hc, hauth, hp]

theorem handle_create_illegal (A : AEAD) (key : Bytes) (e : Env) (s : ServerState)
    (cid : String) (client : Client) (host portRaw : String)
    (hc : getA cid s.clients = some client) (hauth : client.authenticated = true)
    (hp : legalPort (jsParseInt portRaw) = false) :
    handleClientMessage A key e s cid (.createTunnel host portRaw)
      = (s, [.send cid (errorObj "Failed to create tunnel")]) := by
  simp [handleClientMessage, hc, hauth, hp]

theorem handle_close_cases (A : AEAD) (key : Bytes) (e : Env) (s : ServerState)
    (cid : String) (client : Client) (tid : String)
    (hc : getA cid s.clients = some client) :
    (handleClientMessage A key e s cid (.closeTunnel tid)).1 = s ∨
    ∃ t, getA tid s.tunnels = some t ∧ t.clientId = cid ∧
      (handleClientMessage A key e s cid (.closeTunnel tid)).1
        = { clients := setA cid
              ({ client with tunnels := client.tunnels.filter (fun id => id ≠ tid) })
              s.clients,
            tunnels := eraseA t.tunnelId s.tunnels } := by
  by_cases hauth : client.authenticated
  · cases ht : getA tid s.tunnels with
    | none => exact Or.inl (by unfold handleClientMessage; rw [hc]; simp [hauth, ht])
    | some t =>
      by_cases ho : t.clientId = cid
      · refine Or.inr ⟨t, rfl, ho, ?_⟩
        unfold handleClientMessage
        rw [hc]
        simp [hauth, ht, ho, tunnelCloseOp]
      · exact Or.inl (by unfold handleClientMessage; rw [hc]; simp [hauth, ht, ho])
  · exact Or.inl (by unfold handleClientMessage; rw [hc]; simp [hauth])

theorem handle_none_state (A : AEAD) (key : Bytes) (e : Env) (s : ServerState)
    (cid : String) (m : InMsg) (hc : getA cid s.clients = none) :
    (handleClientMessage A key e s cid m).1 = s := by
  unfold handleClientMessage; rw [hc]

theorem closeStep_clients (st : ServerState) (tid : String) :
    (closeStep st tid).clients = st.clients := by
  unfold closeStep
  cases getA tid st.tunnels with
  | none => rfl
  | some t => rfl

theorem foldClose_clients (tids : List String) (s : ServerState) :
    (tids.foldl closeStep s).clients = s.clients := by
  induction tids generalizing s with
  | nil => rfl
  | cons tid rest ih =>
    rw [List.foldl_cons, ih, closeStep_clients]

theorem getA_eraseA_some {α : Type} (k k' : String) (l : List (String × α))
    (v : α) (h : getA k' (eraseA k l) = some v) : getA k' l = some v := by
  by_cases hk : k' = k
  · rw [hk, getA_eraseA_self] at h; cases h
  · rwa [getA_eraseA_ne _ _ _ hk] at h

theorem foldClose_getA (tids : List String) (s : ServerState)
    (hkey : ∀ tid t, getA tid s.tunnels = some t → t.tunnelId = tid)
    (x : String) :
    getA x (tids.foldl closeStep s).tunnels
      = if x ∈ tids then none else getA x s.tunnels := by
  induction tids generalizing s with
  | nil => simp
  | cons tid rest ih =>
    rw [List.foldl_cons]
    have hkey2 : ∀ tid2 t, getA tid2 (closeStep s tid).tunnels = some t →
        t.tunnelId = tid2 := by
      intro tid2 t h
      unfold closeStep at h
      cases hg : getA tid s.tunnels with
      | none => rw [hg] at h; exact hkey tid2 t h
      | some t0 =>
        rw [hg] at h
        exact hkey tid2 t (getA_eraseA_some _ _ _ _ h)
    rw [ih (closeStep s tid) hkey2]
    have hcs : (closeStep s tid).tunnels = eraseA tid s.tunnels ∨
        ((closeStep s tid).tunnels = s.tunnels ∧ getA tid s.tunnels = none) := by
      unfold closeStep
      cases hg : getA tid s.tunnels with
      | none => exact Or.inr ⟨rfl, rfl⟩
      | some t0 =>
        left
        show (tunnelCloseOp s t0).1.tunnels = eraseA tid s.tunnels
        rw [show (tunnelCloseOp s t0).1.tunnels = eraseA t0.tunnelId s.tunnels from rfl,
          hkey tid t0 hg]
    by_cases hr : x ∈ rest
    · simp [hr]
    · by_cases hx : x = tid
      · subst hx
        rcases hcs with hcs | ⟨hcs, hnone⟩
        · simp [hr, hcs, getA_eraseA_self]
        · simp [hr, hcs, hnone]
      · rcases hcs with hcs | ⟨hcs, -⟩
        · simp only [hcs, getA_eraseA_ne _ _ _ hx]
          simp [hr, hx]
        · simp [hr, hx, hcs]

theorem handle_create_unauth (A : AEAD) (key : Bytes) (e : Env) (s : ServerState)
    (cid : String) (client : Client) (host portRaw : String)
    (hc : getA cid s.clients = some client) (hauth : client.authenticated = false) :
    handleClientMessage A key e s cid (.createTunnel host portRaw)
      = (s, [.send cid (errorObj "Authentication required")]) := by
  simp [handleClientMessage, hc, hauth]

theorem disconnectOp_eq (s : ServerState) (cid : String) (client : Client)
    (hc : getA cid s.clients = some client) :
    disconnectOp s cid
      = { clients := eraseA cid s.clients,
          tunnels := (client.tunnels.foldl closeStep s).tunnels } := by
  unfold disconnectOp
  rw [hc]
  dsimp only
  rw [foldClose_clients]

/-- Every safe operation preserves the registry consistency
invariant. -/
theorem Inv_applyOp (A : AEAD) (key : Bytes) (s : ServerState) (op : Op)
    (hI : Inv s) (hS : SafeOp s op) : Inv (applyOp A key s op) := by
  obtain ⟨hOwn, hMeta⟩ := hI
  have hkey : ∀ tid t, getA tid s.tunnels = some t → t.tunnelId = tid :=
    fun tid t h => (hMeta tid t h).2
  cases op with
  | connect cid now =>
    show Inv (connectOp s cid now).1
    constructor
    · intro cid' c' hc' tid htid
      simp only [connectOp] at hc'
      by_cases h : cid' = cid
      · subst h
        rw [getA_setA_self] at hc'
        injection hc' with hc'
        subst hc'
        simp at htid
      · rw [getA_setA_ne _ _ _ _ h] at hc'
        exact hOwn cid' c' hc' tid htid
    · exact hMeta
  | outboundClose tid => exact hS.elim
  | sweep now =>
    show Inv (sweepOp s now)
    rw [sweepOp_noop s now (fun tid t h => (hMeta tid t h).1)]
    exact ⟨hOwn, hMeta⟩
  | disconnect cid =>
    show Inv (disconnectOp s cid)
    cases hc : getA cid s.clients with
    | none =>
      unfold disconnectOp
      rw [hc]
      exact ⟨hOwn, hMeta⟩
    | some client =>
      rw [disconnectOp_eq s cid client hc]
      constructor
      · intro cid' c' hc' tid htid
        have h1 : cid' ≠ cid := by
          intro heq
          rw [heq, getA_eraseA_self] at hc'
          cases hc'
        have hc'' := getA_eraseA_some _ _ _ _ hc'
        obtain ⟨t, ht, hown⟩ := hOwn cid' c' hc'' tid htid
        have hmem : tid ∉ client.tunnels := by
          intro hmem
          obtain ⟨t2, ht2, hown2⟩ := hOwn cid client hc tid hmem
          rw [ht] at ht2
          injection ht2 with ht2
          subst ht2
          exact h1 (hown ▸ hown2 ▸ rfl)
        refine ⟨t, ?_, hown⟩
        rw [foldClose_getA _ _ hkey, if_neg hmem]
        exact ht
      · intro tid t ht
        rw [foldClose_getA _ _ hkey] at ht
        by_cases hmem : tid ∈ client.tunnels
        · rw [if_pos hmem] at ht; cases ht
        · rw [if_neg hmem] at ht
          exact hMeta tid t ht
  | msg cid m e =>
    show Inv (handleClientMessage A key e s cid m).1
    cases hc : getA cid s.clients with
    | none => rw [handle_none_state A key e s cid m hc]; exact ⟨hOwn, hMeta⟩
    | some client =>
      cases m with
      | auth tok =>
        by_cases hv : tok ∈ validTokens
        · rw [handle_auth_valid A key e s cid client tok hc hv]
          constructor
          · intro cid' c' hc' tid htid
            by_cases h : cid' = cid
            · subst h
              rw [getA_setA_self] at hc'
              injection hc' with hc'
              subst hc'
              exact hOwn _ client hc tid htid
            · rw [getA_setA_ne _ _ _ _ h] at hc'
              exact hOwn cid' c' hc' tid htid
          · exact hMeta
        · rw [handle_state_id A key e s cid _ hv]; exact ⟨hOwn, hMeta⟩
      | ping t => rw [handle_state_id A key e s cid _ trivial]; exact ⟨hOwn, hMeta⟩
      | stats => rw [handle_state_id A key e s cid _ trivial]; exact ⟨hOwn, hMeta⟩
      | httpProxy => rw [handle_state_id A key e s cid _ trivial]; exact ⟨hOwn, hMeta⟩
      | unknown ty => rw [handle_state_id A key e s cid _ trivial]; exact ⟨hOwn, hMeta⟩
      | tunnelData tid payload =>
        rw [handle_state_id A key e s cid _ trivial]; exact ⟨hOwn, hMeta⟩
      | createTunnel host portRaw =>
        have hfresh : getA e.freshId s.tunnels = none := hS
        cases hauth : client.authenticated with
        | false =>
          rw [show (handleClientMessage A key e s cid
              (.createTunnel host portRaw)).1 = s by
            rw [handle_create_unauth A key e s cid client host portRaw hc hauth]]
          exact ⟨hOwn, hMeta⟩
        | true =>
          cases hp : legalPort (jsParseInt portRaw) with
          | false =>
            rw [show (handleClientMessage A key e s cid
                (.createTunnel host portRaw)).1 = s by
              rw [handle_create_illegal A key e s cid client host portRaw hc hauth hp]]
            exact ⟨hOwn, hMeta⟩
          | true =>
            rw [handle_create_legal A key e s cid client host portRaw hc hauth hp]
            constructor
            · intro cid' c' hc' tid htid
              by_cases h : cid' = cid
              · subst h
                rw [getA_setA_self] at hc'
                injection hc' with hc'
                subst hc'
                rcases List.mem_append.mp htid with hold | hnew
                · obtain ⟨t, ht, hown⟩ := hOwn _ client hc tid hold
                  have hne : tid ≠ e.freshId := by
                    intro heq
                    rw [heq, hfresh] at ht
                    cases ht
                  refine ⟨t, ?_, hown⟩
                  rw [getA_setA_ne _ _ _ _ hne]
                  exact ht
                · have heq : tid = e.freshId := by simpa using hnew
                  subst heq
                  exact ⟨_, getA_setA_self _ _ _, rfl⟩
              · rw [getA_setA_ne _ _ _ _ h] at hc'
                obtain ⟨t, ht, hown⟩ := hOwn cid' c' hc' tid htid
                have hne : tid ≠ e.freshId := by
                  intro heq
                  rw [heq, hfresh] at ht
                  cases ht
                refine ⟨t, ?_, hown⟩
                rw [getA_setA_ne _ _ _ _ hne]
                exact ht
            · intro tid t ht
              by_cases h : tid = e.freshId
              · subst h
                rw [getA_setA_self] at ht
                injection ht with ht
                subst ht
                exact ⟨rfl, rfl⟩
              · rw [getA_setA_ne _ _ _ _ h] at ht
                exact hMeta tid t ht
      | closeTunnel tid =>
        rcases handle_close_cases A key e s cid client tid hc with hst | ⟨t, ht, ho, hst⟩
        · rw [hst]; exact ⟨hOwn, hMeta⟩
        · rw [hst]
          have htk : t.tunnelId = tid := (hMeta tid t ht).2
          constructor
          · intro cid' c' hc' tid' htid'
            by_cases h : cid' = cid
            · subst h
              rw [getA_setA_self] at hc'
              injection hc' with hc'
              subst hc'
              simp only [List.mem_filter] at htid'
              obtain ⟨hmem, hne⟩ := htid'
              have hne' : tid' ≠ tid := by simpa using hne
              obtain ⟨t', ht', hown'⟩ := hOwn _ client hc tid' hmem
              refine ⟨t', ?_, hown'⟩
              rw [htk, getA_eraseA_ne _ _ _ hne']
              exact ht'
            · rw [getA_setA_ne _ _ _ _ h] at hc'
              obtain ⟨t', ht', hown'⟩ := hOwn cid' c' hc' tid' htid'
              have hne' : tid' ≠ tid := by
                intro heq
                rw [heq, ht] at ht'
                injection ht' with ht'
                subst ht'
                exact h (hown' ▸ ho ▸ rfl)
              refine ⟨t', ?_, hown'⟩
              rw [htk, getA_eraseA_ne _ _ _ hne']
              exact ht'
          · intro tid' t' ht'
            exact hMeta tid' t' (getA_eraseA_some _ _ _ _ ht')

/-- Safe-reachable states satisfy the registry consistency invariant. -/
theorem ReachableSafe_Inv (A : AEAD) (key : Bytes) (s : ServerState)
    (h : ReachableSafe A key s) : Inv s := by
  induction h with
  | init =>
    exact ⟨(fun cid c hc => nomatch hc), (fun tid t ht => nomatch ht)⟩
  | step hr hsafe ih => exact Inv_applyOp _ _ _ _ ih hsafe

theorem C10_auth_flag_witness :
    getA "u" preAuthState.clients = some preAuthClient ∧
    preAuthClient.authenticated = false ∧
    ((∃ c2, getA "u" (applyAuths toyAEAD [] preAuthState "u"
          ["nope", "client123", "bad"]).clients = some c2 ∧
       (c2.authenticated = true ↔
        ∃ tok ∈ ["nope", "client123", "bad"], tok ∈ validTokens)) ∧
     (∀ e m cid' c', getA cid' preAuthState.clients = some c' →
        c'.authenticated = true →
        ∃ c2, getA cid'
            (handleClientMessage toyAEAD [] e preAuthState "u" m).1.clients
          = some c2 ∧ c2.authenticated = true)) :=
  ⟨rfl, rfl,
   C10_auth_flag toyAEAD [] preAuthState "u" preAuthClient
     ["nope", "client123", "bad"] rfl rfl⟩

/-- A concrete operation sequence from the claim's operation set:
connect, authenticate, create a tunnel, then an outbound-socket
triggered close of that tunnel. -/
def c5Ops : List Op :=
  [.connect "a" 0,
   .msg "a" (.auth "client123") {},
   .msg "a" (.createTunnel "example.com" "80") { freshId := "t1" },
   .outboundClose "t1"]

def c5Bad : ServerState := applyOps toyAEAD [] initState c5Ops

/-- C5 fails on the code: after an outbound error/close tears a tunnel
down, the registry entry is deleted but the owner's tunnelId list still
names it, so the session's tunnelId set is not a subset of the registry
keys in this reachable state. -/
theorem C5_counterexample :
    getA "a" c5Bad.clients
      = some { id := "a", authenticated := true, tunnels := ["t1"], connectedAt := 0 } ∧
    getA "t1" c5Bad.tunnels = none ∧
    ¬ SubsetInv c5Bad := by
  refine ⟨rfl, rfl, fun h => ?_⟩
  obtain ⟨t, ht⟩ := h "a"
    { id := "a", authenticated := true, tunnels := ["t1"], connectedAt := 0 }
    rfl "t1" (by decide)
  have hnone : getA "t1" c5Bad.tunnels = none := rfl
  rw [hnone] at ht
  cases ht

/-- C5 amended: the subset invariant holds in every state reachable by
connects, inbound messages (create_tunnel with a fresh random id,
close_tunnel and the rest), session disconnects and sweeps — but not
under outbound-socket-triggered closes, which delete the registry entry
without updating the owner's tunnelId list (the sweep also would, but it
never closes anything; see C6). -/
theorem C5_subset_invariant (A : AEAD) (key : Bytes) (s : ServerState)
    (h : ReachableSafe A key s) : SubsetInv s := by
  intro cid c hc tid htid
  obtain ⟨t, ht, -⟩ := (ReachableSafe_Inv A key s h).1 cid c hc tid htid
  exact ⟨t, ht⟩

def c5SafeState : ServerState :=
  applyOps toyAEAD [] initState
    [.connect "a" 0,
     .msg "a" (.auth "client123") {},
     .msg "a" (.createTunnel "example.com" "80") { freshId := "t1" }]

theorem C5_subset_invariant_witness : SubsetInv c5SafeState := by
  have h2 : ReachableSafe toyAEAD [] c5SafeState := by
    have step0 : ReachableSafe toyAEAD [] initState := .init
    have step1 : ReachableSafe toyAEAD []
        (applyOp toyAEAD [] initState (.connect "a" 0)) :=
      step0.step trivial
    have step2 : ReachableSafe toyAEAD []
        (applyOp toyAEAD [] (applyOp toyAEAD [] initState (.connect "a" 0))
          (.msg "a" (.auth "client123") {})) :=
      step1.step trivial
    have hfresh : SafeOp
        (applyOp toyAEAD [] (applyOp toyAEAD [] initState (.connect "a" 0))
          (.msg "a" (.auth "client123") {}))
        (.msg "a" (.createTunnel "example.com" "80") { freshId := "t1" }) := rfl
    exact step2.step hfresh
  exact C5_subset_invariant toyAEAD [] c5SafeState h2

end VPN
